import Mathlib

/-!
# Fish management API: handlers over the SQLite store

A shallow embedding of `src/main.go`.  Every handler of the program runs one SQL
statement against a SQLite file holding the two tables of `createTables` and
answers with a status code and a JSON body.  The embedding makes the store an
explicit value (`DB`), every handler a function of the store and of its request,
and the response a pair of a status and the Go value handed to `c.JSON`.

Conventions.
* A request body is given by the outcome of `c.ShouldBindJSON`: the decoded
  record, or the text of the decoding error.
* A route parameter (`c.Param`) is a `String`.
* A failure of the database itself (I/O error, lock, corrupt file) is an input of
  the handler: `some text` as the `fault` argument makes the handler's statement
  fail with that error text.
* Go's `int` is 64 bits; identifiers are integers and no arithmetic is done on
  them apart from the allocation of a fresh row id.
-/

namespace FishApi

/-! ## Models (`main.go`, lines 14-33) -/

/-- The Go struct `FishProfile`. -/
structure FishProfile where
  ID : Int
  Name : String
  Variety : String
  Color : String
  Age : String
  HealthStatus : String
  LastHealthCheck : String
  Notes : String
  TankID : String
  deriving DecidableEq, Repr, Inhabited

/-- The Go struct `FeedingSchedule`. -/
structure FeedingSchedule where
  ID : Int
  Time : String
  FoodType : String
  FishID : Int
  FishName : String
  deriving DecidableEq, Repr, Inhabited

/-- A Go slice: `none` is the nil slice, `some xs` a slice with elements `xs`. -/
abbrev Slice (α : Type) := Option (List α)

/-- Go's `append(s, x)`: appending to the nil slice allocates. -/
def Slice.append {α : Type} (s : Slice α) (x : α) : Slice α :=
  match s with
  | none => some [x]
  | some xs => some (xs ++ [x])

/-- The elements of a slice; the nil slice has none. -/
def Slice.elems {α : Type} (s : Slice α) : List α :=
  match s with
  | none => []
  | some xs => xs

/-! ## JSON bodies -/

/-- A scalar JSON value as the handlers emit them. -/
inductive JsonValue where
  | num (n : Int)
  | str (s : String)
  deriving DecidableEq, Repr

/-- A JSON object: its members in the order they are written. -/
abbrev JsonObject := List (String × JsonValue)

/-- The JSON documents the handlers emit. -/
inductive Json where
  | null
  | object (members : JsonObject)
  | array (items : List JsonObject)
  deriving DecidableEq, Repr

/-- Whether a JSON object has a member with the given key. -/
def JsonObject.hasKey (o : JsonObject) (key : String) : Bool :=
  o.any (fun kv => kv.1 == key)

/-- The value of the first member with the given key. -/
def JsonObject.get? (o : JsonObject) (key : String) : Option JsonValue :=
  (o.find? (fun kv => kv.1 == key)).map Prod.snd

/-- The value handed to `c.JSON` by a handler. -/
inductive Body where
  | error (msg : String)                       -- gin.H{"error": msg}
  | message (msg : String)                     -- gin.H{"message": msg}
  | fish (f : FishProfile)
  | fishList (l : Slice FishProfile)
  | schedule (s : FeedingSchedule)
  | scheduleList (l : Slice FeedingSchedule)
  deriving DecidableEq, Repr

/-- The JSON object of a `FishProfile`, one member per struct field, named by its
`json` tag. -/
def FishProfile.toJson (f : FishProfile) : JsonObject :=
  [("id", .num f.ID), ("name", .str f.Name), ("variety", .str f.Variety),
   ("color", .str f.Color), ("age", .str f.Age), ("healthStatus", .str f.HealthStatus),
   ("lastHealthCheck", .str f.LastHealthCheck), ("notes", .str f.Notes),
   ("tankId", .str f.TankID)]

/-- The JSON object of a `FeedingSchedule`.  No tag of the struct carries
`omitempty`, so all five members are always written. -/
def FeedingSchedule.toJson (s : FeedingSchedule) : JsonObject :=
  [("id", .num s.ID), ("time", .str s.Time), ("foodType", .str s.FoodType),
   ("fishId", .num s.FishID), ("fishName", .str s.FishName)]

/-- The encoding of a slice by `encoding/json`: the nil slice is written `null`,
any other slice as an array. -/
def marshalSlice {α : Type} (enc : α → JsonObject) (s : Slice α) : Json :=
  match s with
  | none => .null
  | some xs => .array (xs.map enc)

/-- The JSON document `c.JSON` writes for a body. -/
def Body.marshal : Body → Json
  | .error msg => .object [("error", .str msg)]
  | .message msg => .object [("message", .str msg)]
  | .fish f => .object f.toJson
  | .fishList l => marshalSlice FishProfile.toJson l
  | .schedule s => .object s.toJson
  | .scheduleList l => marshalSlice FeedingSchedule.toJson l

/-- An HTTP response: status code and body. -/
structure Response where
  status : Nat
  body : Body
  deriving DecidableEq, Repr

/-! ## `strconv.Atoi` -/

/-- The two errors of `strconv`. -/
inductive NumError where
  | ErrSyntax
  | ErrRange
  deriving DecidableEq, Repr

/-- The digit loop of `strconv.ParseUint(s, 10, 64)`: a character that is not a
decimal digit is a syntax error; the first digit at which the value leaves the
64-bit unsigned range is a range error, whatever follows it. -/
def parseUintLoop : List Char → Nat → Except NumError Nat
  | [], n => .ok n
  | c :: cs, n =>
    if c.isDigit then
      if n * 10 + (c.toNat - 48) ≥ 2 ^ 64 then .error .ErrRange
      else parseUintLoop cs (n * 10 + (c.toNat - 48))
    else .error .ErrSyntax

/-- Go's `strconv.ParseUint(s, 10, 64)` on the characters of `s`. -/
def parseUint (s : List Char) : Except NumError Nat :=
  match s with
  | [] => .error .ErrSyntax
  | _ => parseUintLoop s 0

/-- The largest Go `int`, which is also the largest SQLite row id. -/
def maxInt64 : Int := 2 ^ 63 - 1

/-- The smallest Go `int`. -/
def minInt64 : Int := -(2 ^ 63)

/-- The value and error of `ParseInt` once the sign is split off. -/
def parseSigned (neg : Bool) (digits : List Char) : Int × Option NumError :=
  match parseUint digits with
  | .error .ErrSyntax => (0, some .ErrSyntax)
  | .error .ErrRange => (if neg then minInt64 else maxInt64, some .ErrRange)
  | .ok un =>
    if !neg && (un : Int) > maxInt64 then (maxInt64, some .ErrRange)
    else if neg && (un : Int) > 2 ^ 63 then (minInt64, some .ErrRange)
    else (if neg then -(un : Int) else (un : Int), none)

/-- Go's `strconv.Atoi`: the value it returns and its error, if any.  A leading
`+` or `-` is the sign.  On a syntax error the value is 0; on a range error it is
the nearest 64-bit integer. -/
def strconvAtoi (s : String) : Int × Option NumError :=
  match s.toList with
  | [] => (0, some .ErrSyntax)
  | c :: cs =>
    if c = '+' then parseSigned false cs
    else if c = '-' then parseSigned true cs
    else parseSigned false (c :: cs)

/-- A character of a decimal numeral. -/
def IsDecimalChar (c : Char) : Prop := ∃ d, d < 10 ∧ c = Nat.digitChar d

/-! ## The SQLite store -/

/-- A row of `fish_profiles`.  `notes` is the one column declared without
`NOT NULL`. -/
structure FishRow where
  id : Int
  name : String
  variety : String
  color : String
  age : String
  health_status : String
  last_health_check : String
  notes : Option String
  tank_id : String
  deriving DecidableEq, Repr

/-- A row of `feeding_schedules`.  The column `fish_id` is declared `TEXT`; the
program only ever binds a Go `int` to it, which the engine stores as its decimal
text and the driver converts back on `Scan`, so the row keeps the integer. -/
structure ScheduleRow where
  id : Int
  time : String
  food_type : String
  fish_id : Int
  deriving DecidableEq, Repr

/-- The contents of the database file `./fish_management.db`: the two tables and,
for each, the `sqlite_sequence` counter that `AUTOINCREMENT` maintains. -/
structure Tables where
  fish_profiles : List FishRow
  feeding_schedules : List ScheduleRow
  fishSeq : Int
  scheduleSeq : Int
  deriving DecidableEq, Repr

/-- An open connection: the file contents and the connection's
`PRAGMA foreign_keys` setting. -/
structure DB where
  foreignKeys : Bool
  tables : Tables
  deriving DecidableEq, Repr

/-- The file a fresh `CREATE TABLE IF NOT EXISTS` leaves when none existed. -/
def Tables.empty : Tables := ⟨[], [], 0, 0⟩

/-- The program's `initDB` followed by `createTables`, on the database file as it
is found (`none` when there is no file yet).  `sql.Open` is given the bare path
`./fish_management.db`: the data source name carries no `_foreign_keys` parameter
and the program never executes a `PRAGMA` statement, so the connection keeps the
default of SQLite and of the driver, foreign-key enforcement off.  `createTables` creates the tables
only if they are absent and leaves existing rows alone. -/
def initDB (file : Option Tables) : DB :=
  { foreignKeys := false, tables := file.getD Tables.empty }

/-- The integrity an `INTEGER PRIMARY KEY` column maintains: no two rows share an
id, and every id is a 64-bit integer. -/
def IdsWF (ids : List Int) : Prop :=
  ids.Nodup ∧ ∀ i ∈ ids, minInt64 ≤ i ∧ i ≤ maxInt64

/-- Both tables of the store keep the integrity of their primary key. -/
def DB.WF (db : DB) : Prop :=
  IdsWF (db.tables.fish_profiles.map FishRow.id) ∧
  IdsWF (db.tables.feeding_schedules.map ScheduleRow.id)

instance (ids : List Int) : Decidable (IdsWF ids) := by
  unfold IdsWF; exact inferInstance

instance (db : DB) : Decidable db.WF := by
  unfold DB.WF; exact inferInstance

/-- SQLite's white-space characters. -/
def sqliteIsSpace (c : Char) : Bool :=
  c == ' ' || c == '\t' || c == '\n' || c == '\x0b' || c == '\x0c' || c == '\r'

/-- A text without its leading and trailing SQLite white space. -/
def sqliteTrim (cs : List Char) : List Char :=
  ((cs.dropWhile sqliteIsSpace).reverse.dropWhile sqliteIsSpace).reverse

/-- The integer a text parameter stands for when SQLite compares it with an
`INTEGER PRIMARY KEY` column (`WHERE id = ?` with a Go string bound): the text
operand is given numeric affinity, so a well-formed integer literal, surrounding
white space allowed, is converted to that integer; any other text equals no
integer.  Only the integer spelling is modelled: for a text in real notation
(`1.0`, `1e0`), which the engine also compares by value, the result is `none`. -/
def sqliteIntegerOfText (s : String) : Option Int :=
  match sqliteTrim s.toList with
  | [] => none
  | c :: cs =>
    match parseUint (if c = '+' ∨ c = '-' then cs else c :: cs) with
    | .ok un =>
      if minInt64 ≤ (if c = '-' then -(un : Int) else (un : Int)) ∧
          (if c = '-' then -(un : Int) else (un : Int)) ≤ maxInt64 then
        some (if c = '-' then -(un : Int) else (un : Int))
      else none
    | .error _ => none

/-- The text SQLite stores for an integer bound to a `TEXT` column. -/
def sqliteTextOfInteger (n : Int) : String := toString n

/-- The row id `AUTOINCREMENT` gives the next row of a table: one more than the
largest id in the table (1 for an empty table), and at least one more than the
table's `sqlite_sequence` counter. -/
def newRowid (ids : List Int) (seq : Int) : Int :=
  let next : Int :=
    match ids with
    | [] => 1
    | i :: is => is.foldl max i + 1
  max next (seq + 1)

/-- The id the next `INSERT INTO fish_profiles` assigns. -/
def DB.nextFishId (db : DB) : Int :=
  newRowid (db.tables.fish_profiles.map FishRow.id) db.tables.fishSeq

/-- The id the next `INSERT INTO feeding_schedules` assigns. -/
def DB.nextScheduleId (db : DB) : Int :=
  newRowid (db.tables.feeding_schedules.map ScheduleRow.id) db.tables.scheduleSeq

/-- An error returned by a `database/sql` call. -/
inductive DbError where
  | ErrNoRows                      -- sql.ErrNoRows
  | failure (text : String)        -- any other error, with its text
  deriving DecidableEq, Repr

instance {ε α : Type} [DecidableEq ε] [DecidableEq α] : DecidableEq (Except ε α) :=
  fun a b =>
    match a, b with
    | .ok x, .ok y => if h : x = y then isTrue (by rw [h]) else isFalse (by intro e; cases e; exact h rfl)
    | .error x, .error y =>
      if h : x = y then isTrue (by rw [h]) else isFalse (by intro e; cases e; exact h rfl)
    | .ok _, .error _ => isFalse (by intro e; cases e)
    | .error _, .ok _ => isFalse (by intro e; cases e)

/-- The `sql.Result` of an `Exec`. -/
structure ExecResult where
  lastInsertId : Int
  rowsAffected : Nat
  deriving DecidableEq, Repr

/-- What goes wrong while a `db.Query` result set is read: nothing; `db.Query`
itself returns an error; or a later `rows.Next()` fails after `delivered` rows
were read.  `rows.Next()` reports such a failure by returning `false`, exactly as
at the end of the result set; only `rows.Err()` tells the two apart. -/
inductive QueryFault where
  | none
  | query (text : String)
  | next (delivered : Nat) (text : String)
  deriving DecidableEq, Repr

/-- The rows for which `rows.Next()` returns `true`. -/
def QueryFault.deliver {α : Type} (fault : QueryFault) (rows : List α) : List α :=
  match fault with
  | .next k _ => rows.take k
  | _ => rows

/-! ### Statements on `fish_profiles` -/

/-- The row the `INSERT` of `createFish` writes: the eight bound fields under a
fresh id.  The `ID` of the record is not bound. -/
def FishRow.ofProfile (id : Int) (fish : FishProfile) : FishRow :=
  { id := id, name := fish.Name, variety := fish.Variety, color := fish.Color,
    age := fish.Age, health_status := fish.HealthStatus,
    last_health_check := fish.LastHealthCheck, notes := some fish.Notes,
    tank_id := fish.TankID }

/-- The `INSERT INTO fish_profiles (...) VALUES (?, ?, ?, ?, ?, ?, ?, ?)` of
`createFish`. -/
def execInsertFish (db : DB) (fish : FishProfile) (fault : Option String) :
    Except String (DB × ExecResult) :=
  match fault with
  | some e => .error e
  | none =>
    let id := db.nextFishId
    if id > maxInt64 then .error "database or disk is full"
    else
      .ok ({ db with tables := { db.tables with
                fish_profiles := db.tables.fish_profiles ++ [FishRow.ofProfile id fish],
                fishSeq := id } },
           ⟨id, 1⟩)

/-- Scanning a `fish_profiles` row into a `FishProfile`: `Scan` cannot store a
NULL `notes` into a Go `string`. -/
def scanFish (r : FishRow) : Except String FishProfile :=
  match r.notes with
  | none =>
    .error "sql: Scan error on column index 7, name \"notes\": converting NULL to string is unsupported"
  | some notes =>
    .ok { ID := r.id, Name := r.name, Variety := r.variety, Color := r.color, Age := r.age,
          HealthStatus := r.health_status, LastHealthCheck := r.last_health_check,
          Notes := notes, TankID := r.tank_id }

/-- The `db.QueryRow("SELECT ... FROM fish_profiles WHERE id = ?", id).Scan(...)`
of `getFish`, with the route parameter bound as text. -/
def queryRowFish (db : DB) (id : String) (fault : Option String) :
    Except DbError FishProfile :=
  match fault with
  | some e => .error (.failure e)
  | none =>
    match sqliteIntegerOfText id with
    | none => .error .ErrNoRows
    | some n =>
      match db.tables.fish_profiles.find? (fun r => r.id == n) with
      | none => .error .ErrNoRows
      | some r =>
        match scanFish r with
        | .error e => .error (.failure e)
        | .ok fish => .ok fish

/-- The `UPDATE fish_profiles SET ... WHERE id = ?` of `updateFish`: every row
with that id gets the eight bound fields. -/
def execUpdateFish (db : DB) (fish : FishProfile) (id : Int) (fault : Option String) :
    Except String (DB × ExecResult) :=
  match fault with
  | some e => .error e
  | none =>
    .ok ({ db with tables := { db.tables with
              fish_profiles := db.tables.fish_profiles.map
                (fun r => if r.id = id then FishRow.ofProfile id fish else r) } },
         ⟨0, db.tables.fish_profiles.countP (fun r => r.id == id)⟩)

/-- The `DELETE FROM fish_profiles WHERE id = ?` of `deleteFish`, with the route
parameter bound as text.  When the connection enforces foreign keys, removing a
fish row removes the schedules referring to it (`ON DELETE CASCADE`); those do not
count as affected rows. -/
def execDeleteFish (db : DB) (id : String) (fault : Option String) :
    Except String (DB × ExecResult) :=
  match fault with
  | some e => .error e
  | none =>
    match sqliteIntegerOfText id with
    | none => .ok (db, ⟨0, 0⟩)
    | some n =>
      let deleted := db.tables.fish_profiles.countP (fun r => r.id == n)
      let schedules :=
        if db.foreignKeys && deleted != 0 then
          db.tables.feeding_schedules.filter (fun s => s.fish_id != n)
        else db.tables.feeding_schedules
      .ok ({ db with tables := { db.tables with
                fish_profiles := db.tables.fish_profiles.filter (fun r => r.id != n),
                feeding_schedules := schedules } },
           ⟨0, deleted⟩)

/-! ### Statements on `feeding_schedules` -/

/-- Whether a `fish_profiles` row with this id exists: the parent-key check of the
foreign key on `feeding_schedules.fish_id`. -/
def fishExists (db : DB) (fishId : Int) : Bool :=
  db.tables.fish_profiles.any (fun r => r.id == fishId)

/-- The `INSERT INTO feeding_schedules (time, food_type, fish_id) VALUES (?, ?, ?)`
of `createFeedingSchedule`.  `FishName` is not bound.  With foreign keys enforced
the insert fails unless the fish exists. -/
def execInsertSchedule (db : DB) (schedule : FeedingSchedule) (fault : Option String) :
    Except String (DB × ExecResult) :=
  match fault with
  | some e => .error e
  | none =>
    if db.foreignKeys && !fishExists db schedule.FishID then
      .error "FOREIGN KEY constraint failed"
    else
      let id := db.nextScheduleId
      if id > maxInt64 then .error "database or disk is full"
      else
        .ok ({ db with tables := { db.tables with
                  feeding_schedules := db.tables.feeding_schedules ++
                    [⟨id, schedule.Time, schedule.FoodType, schedule.FishID⟩],
                  scheduleSeq := id } },
             ⟨id, 1⟩)

/-- The rows of `feeding_schedules fs JOIN fish_profiles fp ON fs.fish_id = fp.id`:
each schedule paired with every fish row carrying the id it refers to. -/
def joinSchedulesFish (db : DB) : List (ScheduleRow × FishRow) :=
  db.tables.feeding_schedules.flatMap
    (fun s => (db.tables.fish_profiles.filter (fun f => s.fish_id == f.id)).map
      (fun f => (s, f)))

/-- Scanning a joined row `fs.id, fs.time, fs.food_type, fs.fish_id, fp.name`. -/
def scanJoined (r : ScheduleRow × FishRow) : Except String FeedingSchedule :=
  .ok { ID := r.1.id, Time := r.1.time, FoodType := r.1.food_type, FishID := r.1.fish_id,
        FishName := r.2.name }

/-- Scanning a row `id, time, food_type, fish_id` of `getFeedingSchedulesByFish`:
`FishName` is not among the destinations and keeps the zero value of the fresh
`var schedule FeedingSchedule`. -/
def scanSchedule (r : ScheduleRow) : Except String FeedingSchedule :=
  .ok { ID := r.id, Time := r.time, FoodType := r.food_type, FishID := r.fish_id,
        FishName := "" }

/-- The `db.QueryRow("SELECT ... JOIN ... WHERE fs.id = ?", id).Scan(...)` of
`getFeedingSchedule`. -/
def queryRowSchedule (db : DB) (id : Int) (fault : Option String) :
    Except DbError FeedingSchedule :=
  match fault with
  | some e => .error (.failure e)
  | none =>
    match (joinSchedulesFish db).find? (fun r => r.1.id == id) with
    | none => .error .ErrNoRows
    | some r =>
      match scanJoined r with
      | .error e => .error (.failure e)
      | .ok schedule => .ok schedule

/-- The result set of `SELECT id, time, food_type, fish_id FROM feeding_schedules
WHERE fish_id = ?` with the route parameter bound as text: `fish_id` is a `TEXT`
column, so the comparison is between the stored text and the parameter. -/
def selectSchedulesByFish (db : DB) (fishId : String) : List ScheduleRow :=
  db.tables.feeding_schedules.filter (fun s => sqliteTextOfInteger s.fish_id == fishId)

/-- The `UPDATE feeding_schedules SET time = ?, food_type = ?, fish_id = ? WHERE
id = ?` of `updateFeedingSchedule`.  With foreign keys enforced the statement
fails when it changes a row to refer to a fish that does not exist. -/
def execUpdateSchedule (db : DB) (schedule : FeedingSchedule) (id : Int)
    (fault : Option String) : Except String (DB × ExecResult) :=
  match fault with
  | some e => .error e
  | none =>
    let matched := db.tables.feeding_schedules.countP (fun s => s.id == id)
    if db.foreignKeys && matched != 0 && !fishExists db schedule.FishID then
      .error "FOREIGN KEY constraint failed"
    else
      .ok ({ db with tables := { db.tables with
                feeding_schedules := db.tables.feeding_schedules.map
                  (fun s => if s.id = id then
                      ⟨id, schedule.Time, schedule.FoodType, schedule.FishID⟩ else s) } },
           ⟨0, matched⟩)

/-- The `DELETE FROM feeding_schedules WHERE id = ?` of `deleteFeedingSchedule`. -/
def execDeleteSchedule (db : DB) (id : Int) (fault : Option String) :
    Except String (DB × ExecResult) :=
  match fault with
  | some e => .error e
  | none =>
    .ok ({ db with tables := { db.tables with
              feeding_schedules := db.tables.feeding_schedules.filter (fun s => s.id != id) } },
         ⟨0, db.tables.feeding_schedules.countP (fun s => s.id == id)⟩)

/-! ## Handlers -/

/-- The loop `for rows.Next() { ...Scan...; list = append(list, x) }` of the three
list handlers: the first row that fails to scan ends the handler with an error,
otherwise the rows are appended to the slice, which starts out nil. -/
def scanLoop {ρ α : Type} (scan : ρ → Except String α) :
    List ρ → Slice α → Except String (Slice α)
  | [], acc => .ok acc
  | r :: rs, acc =>
    match scan r with
    | .error e => .error e
    | .ok x => scanLoop scan rs (acc.append x)

/-- The handler `createFish` (`POST /fish`).  The result of `db.Exec` is discarded
and the decoded record is returned as it was decoded. -/
def createFish (db : DB) (body : Except String FishProfile) (fault : Option String) :
    Response × DB :=
  match body with
  | .error e => (⟨400, .error e⟩, db)
  | .ok fish =>
    match execInsertFish db fish fault with
    | .error _ => (⟨500, .error "Failed to create fish profile"⟩, db)
    | .ok (db', _) => (⟨201, .fish fish⟩, db')

/-- The handler `getFish` (`GET /fish/:id`). -/
def getFish (db : DB) (id : String) (fault : Option String) : Response :=
  match queryRowFish db id fault with
  | .error .ErrNoRows => ⟨404, .error "Fish not found"⟩
  | .error (.failure _) => ⟨500, .error "Failed to retrieve fish"⟩
  | .ok fish => ⟨200, .fish fish⟩

/-- The handler `getAllFish` (`GET /fish`).  `rows.Err()` is not consulted after the
loop. -/
def getAllFish (db : DB) (fault : QueryFault) : Response :=
  match fault with
  | .query _ => ⟨500, .error "Failed to retrieve fish profiles"⟩
  | _ =>
    match scanLoop scanFish (fault.deliver db.tables.fish_profiles) none with
    | .error _ => ⟨500, .error "Failed to scan fish data"⟩
    | .ok fishList => ⟨200, .fishList fishList⟩

/-- The handler `updateFish` (`PUT /fish/:id`).  The error of `strconv.Atoi` is
never looked at: the statement runs with whatever value `Atoi` returned. -/
def updateFish (db : DB) (idParam : String) (body : Except String FishProfile)
    (fault : Option String) : Response × DB :=
  let id := (strconvAtoi idParam).1
  match body with
  | .error e => (⟨400, .error e⟩, db)
  | .ok fish =>
    match execUpdateFish db fish id fault with
    | .error _ => (⟨500, .error "Failed to update fish profile"⟩, db)
    | .ok (db', result) =>
      if result.rowsAffected = 0 then (⟨404, .error "Fish not found"⟩, db')
      else (⟨200, .fish { fish with ID := id }⟩, db')

/-- The handler `deleteFish` (`DELETE /fish/:id`). -/
def deleteFish (db : DB) (id : String) (fault : Option String) : Response × DB :=
  match execDeleteFish db id fault with
  | .error _ => (⟨500, .error "Failed to delete fish profile"⟩, db)
  | .ok (db', result) =>
    if result.rowsAffected = 0 then (⟨404, .error "Fish not found"⟩, db')
    else (⟨200, .message "Fish profile deleted successfully"⟩, db')

/-- The handler `createFeedingSchedule` (`POST /feeding-schedules`). -/
def createFeedingSchedule (db : DB) (body : Except String FeedingSchedule)
    (fault : Option String) : Response × DB :=
  match body with
  | .error e => (⟨400, .error e⟩, db)
  | .ok schedule =>
    match execInsertSchedule db schedule fault with
    | .error _ => (⟨500, .error "Failed to create feeding schedule"⟩, db)
    | .ok (db', result) => (⟨201, .schedule { schedule with ID := result.lastInsertId }⟩, db')

/-- The handler `getFeedingSchedule` (`GET /feeding-schedules/:id`). -/
def getFeedingSchedule (db : DB) (idParam : String) (fault : Option String) : Response :=
  match strconvAtoi idParam with
  | (_, some _) => ⟨400, .error "Invalid schedule ID"⟩
  | (id, none) =>
    match queryRowSchedule db id fault with
    | .error .ErrNoRows => ⟨404, .error "Feeding schedule not found"⟩
    | .error (.failure _) => ⟨500, .error "Failed to retrieve feeding schedule"⟩
    | .ok schedule => ⟨200, .schedule schedule⟩

/-- The handler `getAllFeedingSchedules` (`GET /feeding-schedules`). -/
def getAllFeedingSchedules (db : DB) (fault : QueryFault) : Response :=
  match fault with
  | .query _ => ⟨500, .error "Failed to retrieve feeding schedules"⟩
  | _ =>
    match scanLoop scanJoined (fault.deliver (joinSchedulesFish db)) none with
    | .error _ => ⟨500, .error "Failed to scan schedule data"⟩
    | .ok schedules => ⟨200, .scheduleList schedules⟩

/-- The handler `getFeedingSchedulesByFish` (`GET /feeding-schedules/fish/:fishId`). -/
def getFeedingSchedulesByFish (db : DB) (fishID : String) (fault : QueryFault) : Response :=
  match fault with
  | .query _ => ⟨500, .error "Failed to retrieve feeding schedules"⟩
  | _ =>
    match scanLoop scanSchedule (fault.deliver (selectSchedulesByFish db fishID)) none with
    | .error _ => ⟨500, .error "Failed to scan schedule data"⟩
    | .ok schedules => ⟨200, .scheduleList schedules⟩

/-- The handler `updateFeedingSchedule` (`PUT /feeding-schedules/:id`). -/
def updateFeedingSchedule (db : DB) (idParam : String)
    (body : Except String FeedingSchedule) (fault : Option String) : Response × DB :=
  match strconvAtoi idParam with
  | (_, some _) => (⟨400, .error "Invalid schedule ID"⟩, db)
  | (id, none) =>
    match body with
    | .error e => (⟨400, .error e⟩, db)
    | .ok schedule =>
      match execUpdateSchedule db schedule id fault with
      | .error _ => (⟨500, .error "Failed to update feeding schedule"⟩, db)
      | .ok (db', result) =>
        if result.rowsAffected = 0 then (⟨404, .error "Feeding schedule not found"⟩, db')
        else (⟨200, .schedule { schedule with ID := id }⟩, db')

/-- The handler `deleteFeedingSchedule` (`DELETE /feeding-schedules/:id`). -/
def deleteFeedingSchedule (db : DB) (idParam : String) (fault : Option String) :
    Response × DB :=
  match strconvAtoi idParam with
  | (_, some _) => (⟨400, .error "Invalid schedule ID"⟩, db)
  | (id, none) =>
    match execDeleteSchedule db id fault with
    | .error _ => (⟨500, .error "Failed to delete feeding schedule"⟩, db)
    | .ok (db', result) =>
      if result.rowsAffected = 0 then (⟨404, .error "Feeding schedule not found"⟩, db')
      else (⟨200, .message "Feeding schedule deleted successfully"⟩, db')

/-- The schedule records a response carries: the record of a single-schedule
body, the elements of a schedule list, none for any other body. -/
def Response.schedules (r : Response) : List FeedingSchedule :=
  match r.body with
  | .schedule s => [s]
  | .scheduleList l => l.elems
  | _ => []

/-! ## Sample data -/

/-- The fish of the specification's scenario. -/
def nemo : FishProfile :=
  { ID := 0, Name := "Nemo", Variety := "Clownfish", Color := "orange", Age := "1y",
    HealthStatus := "good", LastHealthCheck := "2024-01-01", Notes := "", TankID := "T1" }

/-- The schedule of the specification's scenario. -/
def breakfast : FeedingSchedule :=
  { ID := 0, Time := "08:00", FoodType := "flakes", FishID := 1, FishName := "" }

/-- The store after the scenario's two creations on a fresh database file. -/
def nemoTables : Tables :=
  { fish_profiles := [FishRow.ofProfile 1 nemo],
    feeding_schedules := [⟨1, "08:00", "flakes", 1⟩],
    fishSeq := 1, scheduleSeq := 1 }

/-- Neither the fish table nor its counter has used up the 64-bit row ids, so an
`INSERT INTO fish_profiles` can be given a fresh id. -/
def DB.fishIdsLeft (db : DB) : Prop :=
  db.nextFishId ≤ maxInt64

/-- The same for `feeding_schedules`. -/
def DB.scheduleIdsLeft (db : DB) : Prop :=
  db.nextScheduleId ≤ maxInt64

instance (db : DB) : Decidable db.fishIdsLeft := by
  unfold DB.fishIdsLeft; exact inferInstance

instance (db : DB) : Decidable db.scheduleIdsLeft := by
  unfold DB.scheduleIdsLeft; exact inferInstance

/-! ## Decimal texts of identifiers -/

/-- The characters `Nat.repr` writes are decimal digits, read back as their value;
none is a sign or white space. -/
theorem digitChar_spec (d : Nat) (hd : d < 10) :
    (Nat.digitChar d).isDigit = true ∧ (Nat.digitChar d).toNat - 48 = d ∧
    Nat.digitChar d ≠ '+' ∧ Nat.digitChar d ≠ '-' ∧
    sqliteIsSpace (Nat.digitChar d) = false := by
  interval_cases d <;> decide

/-- One step of the digit loop on a digit written by `Nat.repr`. -/
theorem parseUintLoop_digit (d : Nat) (hd : d < 10) (rest : List Char) (acc : Nat)
    (h : acc * 10 + d < 2 ^ 64) :
    parseUintLoop (Nat.digitChar d :: rest) acc = parseUintLoop rest (acc * 10 + d) := by
  obtain ⟨h1, h2, _⟩ := digitChar_spec d hd
  have h3 : ¬ (acc * 10 + d ≥ 2 ^ 64) := by omega
  simp only [parseUintLoop, h1, h2, if_true, h3, if_false]

/-- The digits `Nat.toDigitsCore` puts in front of its accumulator are read back
by the digit loop of `ParseUint` as the number they were written for. -/
theorem parseUintLoop_toDigitsCore (fuel : Nat) : ∀ (n : Nat) (ds : List Char), n < fuel →
    ∃ cs : List Char, Nat.toDigitsCore 10 fuel n ds = cs ++ ds ∧ cs ≠ [] ∧
      (∀ c ∈ cs, IsDecimalChar c) ∧
      ∀ (acc : Nat) (rest : List Char), acc * 10 ^ cs.length + n < 2 ^ 64 →
        parseUintLoop (cs ++ rest) acc = parseUintLoop rest (acc * 10 ^ cs.length + n) := by
  induction fuel with
  | zero => intro n ds h; omega
  | succ fuel ih =>
    intro n ds hn
    have hmod : n % 10 < 10 := Nat.mod_lt _ (by decide)
    by_cases h0 : n / 10 = 0
    · refine ⟨[Nat.digitChar (n % 10)], ?_, by simp, ?_, ?_⟩
      · simp [Nat.toDigitsCore, h0]
      · intro c hc
        rw [List.mem_singleton] at hc
        exact ⟨n % 10, hmod, hc⟩
      · intro acc rest hb
        have hn' : n % 10 = n := by omega
        simp only [List.length_singleton, pow_one] at hb ⊢
        rw [List.singleton_append, parseUintLoop_digit _ hmod _ _ (by omega), hn']
    · obtain ⟨cs, h1, _, h3, h4⟩ := ih (n / 10) (Nat.digitChar (n % 10) :: ds) (by omega)
      refine ⟨cs ++ [Nat.digitChar (n % 10)], ?_, by simp, ?_, ?_⟩
      · simp [Nat.toDigitsCore, h0, h1]
      · intro c hc
        rcases List.mem_append.1 hc with hc | hc
        · exact h3 c hc
        · rw [List.mem_singleton] at hc
          exact ⟨n % 10, hmod, hc⟩
      · intro acc rest hb
        have hpow : acc * 10 ^ (cs ++ [Nat.digitChar (n % 10)]).length =
            acc * 10 ^ cs.length * 10 := by
          rw [List.length_append, List.length_singleton, pow_succ, mul_assoc]
        rw [hpow] at hb ⊢
        have hval : (acc * 10 ^ cs.length + n / 10) * 10 + n % 10 =
            acc * 10 ^ cs.length * 10 + n := by omega
        rw [List.append_assoc, List.singleton_append, h4 acc _ (by omega),
          parseUintLoop_digit _ hmod _ _ (by omega), hval]

/-- `ParseUint` reads the decimal numeral of a number below `2 ^ 64` back as that
number; the numeral is not empty and consists of decimal digits. -/
theorem parseUint_toDigits (n : Nat) (hn : n < 2 ^ 64) :
    parseUint (Nat.toDigits 10 n) = .ok n ∧
    (∃ c cs, Nat.toDigits 10 n = c :: cs ∧ IsDecimalChar c) ∧
    ∀ c ∈ Nat.toDigits 10 n, IsDecimalChar c := by
  obtain ⟨cs, h1, h2, h3, h4⟩ := parseUintLoop_toDigitsCore (n + 1) n [] (by omega)
  rw [List.append_nil] at h1
  have hd : Nat.toDigits 10 n = cs := h1
  rw [hd]
  cases cs with
  | nil => exact absurd rfl h2
  | cons c cs =>
    refine ⟨?_, ⟨c, cs, rfl, h3 c (List.mem_cons_self c cs)⟩, h3⟩
    have := h4 0 [] (by omega)
    rw [List.append_nil, zero_mul, zero_add] at this
    show parseUintLoop (c :: cs) 0 = .ok n
    rw [this]
    rfl

/-- `strconv.Atoi` reads the decimal text of a 64-bit integer back as that integer,
without error. -/
theorem strconvAtoi_toString (n : Int) (h1 : minInt64 ≤ n) (h2 : n ≤ maxInt64) :
    strconvAtoi (toString n) = (n, none) := by
  unfold minInt64 at h1
  unfold maxInt64 at h2
  cases n with
  | ofNat m =>
    have hm : m < 2 ^ 64 := by
      have : (m : Int) ≤ 2 ^ 63 - 1 := h2
      omega
    obtain ⟨hp, ⟨c, cs, hcs, d, hd, hc⟩, _⟩ := parseUint_toDigits m hm
    obtain ⟨_, _, hplus, hminus, _⟩ := digitChar_spec d hd
    have hl : (toString (Int.ofNat m)).toList = c :: cs := hcs
    have hgt : ¬ ((m : Int) > maxInt64) := by
      have : (m : Int) ≤ 2 ^ 63 - 1 := h2
      unfold maxInt64; omega
    simp only [strconvAtoi, hl, hc ▸ hplus, hc ▸ hminus, if_false]
    rw [← hcs]
    simp only [parseSigned, hp]
    simp [hgt]
  | negSucc m =>
    rw [Int.negSucc_eq] at h1
    have hm : m + 1 < 2 ^ 64 := by omega
    obtain ⟨hp, _, _⟩ := parseUint_toDigits (m + 1) hm
    have hl : (toString (Int.negSucc m)).toList = '-' :: Nat.toDigits 10 (m + 1) := rfl
    have hgt : ¬ (((m + 1 : Nat) : Int) > 2 ^ 63) := by
      push_cast
      omega
    simp only [strconvAtoi, hl, parseSigned, hp]
    simp [Int.negSucc_eq]
    omega

/-- White space is trimmed from neither end of a text that has none there. -/
theorem sqliteTrim_of_no_space (cs : List Char) (h : ∀ c ∈ cs, sqliteIsSpace c = false) :
    sqliteTrim cs = cs := by
  have hdrop : ∀ l : List Char, (∀ c ∈ l, sqliteIsSpace c = false) →
      l.dropWhile sqliteIsSpace = l := by
    intro l hl
    cases l with
    | nil => rfl
    | cons a l => simp [List.dropWhile, hl a (List.mem_cons_self a l)]
  unfold sqliteTrim
  rw [hdrop cs h, hdrop cs.reverse (fun c hc => h c (List.mem_reverse.1 hc)), List.reverse_reverse]

/-- SQLite reads the decimal text of a 64-bit integer back as that integer. -/
theorem sqliteIntegerOfText_toString (n : Int) (h1 : minInt64 ≤ n) (h2 : n ≤ maxInt64) :
    sqliteIntegerOfText (toString n) = some n := by
  have h1' := h1
  have h2' := h2
  unfold minInt64 at h1'
  unfold maxInt64 at h2'
  cases n with
  | ofNat m =>
    have hm : m < 2 ^ 64 := by
      have : (m : Int) ≤ 2 ^ 63 - 1 := h2'
      omega
    obtain ⟨hp, ⟨c, cs, hcs, d, hd, hc⟩, hall⟩ := parseUint_toDigits m hm
    obtain ⟨_, _, hplus, hminus, _⟩ := digitChar_spec d hd
    have hl : (toString (Int.ofNat m)).toList = c :: cs := hcs
    have htrim : sqliteTrim (c :: cs) = c :: cs := by
      apply sqliteTrim_of_no_space
      intro x hx
      rw [← hcs] at hx
      obtain ⟨e, he, rfl⟩ := hall x hx
      exact (digitChar_spec e he).2.2.2.2
    have hneg : ¬ c = '-' := by rw [hc]; exact hminus
    have hpos : ¬ c = '+' := by rw [hc]; exact hplus
    simp only [sqliteIntegerOfText, hl, htrim, hpos, hneg, or_self, if_false]
    rw [← hcs]
    simp only [hp]
    have hr : minInt64 ≤ (m : Int) ∧ (m : Int) ≤ maxInt64 := ⟨h1, h2⟩
    simp [hr]
  | negSucc m =>
    rw [Int.negSucc_eq] at h1' h1
    have hm : m + 1 < 2 ^ 64 := by omega
    obtain ⟨hp, _, hall⟩ := parseUint_toDigits (m + 1) hm
    have hl : (toString (Int.negSucc m)).toList = '-' :: Nat.toDigits 10 (m + 1) := rfl
    have htrim : sqliteTrim ('-' :: Nat.toDigits 10 (m + 1)) = '-' :: Nat.toDigits 10 (m + 1) := by
      apply sqliteTrim_of_no_space
      intro x hx
      rcases List.mem_cons.1 hx with rfl | hx
      · decide
      · obtain ⟨e, he, rfl⟩ := hall x hx
        exact (digitChar_spec e he).2.2.2.2
    simp only [sqliteIntegerOfText, hl, htrim, or_true, if_true, hp]
    have hr : minInt64 ≤ -((m + 1 : Nat) : Int) ∧ -((m + 1 : Nat) : Int) ≤ maxInt64 := by
      unfold minInt64 maxInt64
      push_cast
      constructor <;> omega
    simp only [hr, and_self, if_true, Int.negSucc_eq]
    simp

/-! ## Lemmas on the store -/

theorem le_foldl_max (l : List Int) (a : Int) :
    a ≤ l.foldl max a ∧ ∀ x ∈ l, x ≤ l.foldl max a := by
  induction l generalizing a with
  | nil => simp
  | cons b l ih =>
    obtain ⟨h1, h2⟩ := ih (max a b)
    refine ⟨le_trans (le_max_left a b) h1, ?_⟩
    intro x hx
    rcases List.mem_cons.1 hx with rfl | hx
    · exact le_trans (le_max_right a x) h1
    · exact h2 x hx

/-- Every id already in the table is below the id given to the next row. -/
theorem lt_newRowid (ids : List Int) (seq : Int) : ∀ i ∈ ids, i < newRowid ids seq := by
  intro i hi
  unfold newRowid
  cases ids with
  | nil => cases hi
  | cons a l =>
    obtain ⟨h1, h2⟩ := le_foldl_max l a
    have hle : i ≤ l.foldl max a := by
      rcases List.mem_cons.1 hi with rfl | hi
      · exact h1
      · exact h2 i hi
    have : l.foldl max a + 1 ≤ max (l.foldl max a + 1) (seq + 1) := le_max_left _ _
    simp only
    omega

/-- A lookup by a fresh id in a table with one row appended finds the new row. -/
theorem find?_append_fresh {α : Type} (l : List α) (x : α) (key : α → Int) (id : Int)
    (hl : ∀ y ∈ l, key y ≠ id) (hx : key x = id) :
    (l ++ [x]).find? (fun y => key y == id) = some x := by
  induction l with
  | nil => simp [hx]
  | cons a l ih =>
    have ha : key a ≠ id := hl a (List.mem_cons_self a l)
    have hb : (key a == id) = false := by simpa using ha
    simpa [List.find?, hb] using ih (fun y hy => hl y (List.mem_cons_of_mem a hy))

/-- An `UPDATE ... WHERE id = ?` that matches no row leaves the table as it was. -/
theorem map_update_of_no_match {α : Type} (l : List α) (key : α → Int) (id : Int) (x : α)
    (hl : ∀ y ∈ l, key y ≠ id) :
    l.map (fun y => if key y = id then x else y) = l := by
  induction l with
  | nil => rfl
  | cons a l ih =>
    have ha : key a ≠ id := hl a (List.mem_cons_self a l)
    simp [ha, ih (fun y hy => hl y (List.mem_cons_of_mem a hy))]

/-- An `UPDATE ... WHERE id = ?` leaves the rows of other ids as they were. -/
theorem filter_ne_map_update {α : Type} (l : List α) (key : α → Int) (id : Int) (x : α)
    (hx : key x = id) :
    (l.map (fun y => if key y = id then x else y)).filter (fun y => key y != id) =
      l.filter (fun y => key y != id) := by
  induction l with
  | nil => rfl
  | cons a l ih =>
    by_cases h : key a = id
    · have hbx : (key x != id) = false := by simp [hx]
      have hba : (key a != id) = false := by simp [h]
      simp only [List.map_cons, if_pos h, List.filter_cons, hbx, hba]
      simpa using ih
    · have hb : (key a != id) = true := by simpa using h
      simp only [List.map_cons, if_neg h, List.filter_cons, hb, if_true]
      rw [ih]

/-- An `UPDATE ... WHERE id = ?` leaves the id of every row as it was. -/
theorem map_key_map_update {α : Type} (l : List α) (key : α → Int) (id : Int) (x : α)
    (hx : key x = id) :
    (l.map (fun y => if key y = id then x else y)).map key = l.map key := by
  rw [List.map_map]
  apply List.map_congr_left
  intro y _
  by_cases h : key y = id
  · simp [h, hx]
  · simp [h]

/-- The id given to the next row is a 64-bit integer from below. -/
theorem minInt64_le_newRowid (ids : List Int) (seq : Int)
    (h : ∀ i ∈ ids, minInt64 ≤ i ∧ i ≤ maxInt64) : minInt64 ≤ newRowid ids seq := by
  cases ids with
  | nil =>
    have h1 : (1 : Int) ≤ max 1 (seq + 1) := le_max_left _ _
    have h2 : minInt64 ≤ 1 := by decide
    exact le_trans h2 h1
  | cons a l =>
    have h1 := lt_newRowid (a :: l) seq a (List.mem_cons_self a l)
    exact le_of_lt (lt_of_le_of_lt (h a (List.mem_cons_self a l)).1 h1)

/-- Inserting a row under the next id keeps the integrity of the primary key. -/
theorem IdsWF_append_new (ids : List Int) (seq : Int) (h : IdsWF ids)
    (hmax : newRowid ids seq ≤ maxInt64) : IdsWF (ids ++ [newRowid ids seq]) := by
  refine ⟨?_, ?_⟩
  · rw [List.nodup_append]
    refine ⟨h.1, List.nodup_singleton _, ?_⟩
    intro i hi hi'
    rw [List.mem_singleton] at hi'
    exact absurd hi' (ne_of_lt (lt_newRowid ids seq i hi))
  · intro i hi
    rcases List.mem_append.1 hi with hi | hi
    · exact h.2 i hi
    · rw [List.mem_singleton] at hi
      rw [hi]
      exact ⟨minInt64_le_newRowid ids seq h.2, hmax⟩

/-- Deleting rows keeps the integrity of the primary key. -/
theorem IdsWF_filter {α : Type} (key : α → Int) (l : List α) (p : α → Bool)
    (h : IdsWF (l.map key)) : IdsWF ((l.filter p).map key) := by
  have hsub : ((l.filter p).map key).Sublist (l.map key) :=
    List.Sublist.map key (List.filter_sublist l)
  exact ⟨h.1.sublist hsub, fun i hi => h.2 i (hsub.subset hi)⟩

/-- No row matches exactly when the count of matching rows is zero. -/
theorem countP_key_eq_zero {α : Type} (l : List α) (key : α → Int) (id : Int) :
    l.countP (fun y => key y == id) = 0 ↔ ∀ y ∈ l, key y ≠ id := by
  simp [List.countP_eq_zero]

/-- When no row fails to scan, the loop of a list handler returns the scanned rows:
the nil slice it started from if there was no row, a slice of the rows otherwise. -/
theorem scanLoop_total {ρ α : Type} (scan : ρ → Except String α) (f : ρ → α)
    (hscan : ∀ r, scan r = .ok (f r)) (rows : List ρ) (acc : Slice α) :
    scanLoop scan rows acc =
      .ok (match rows with
        | [] => acc
        | _ :: _ => some (acc.elems ++ rows.map f)) := by
  induction rows generalizing acc with
  | nil => simp [scanLoop]
  | cons r rs ih =>
    simp only [scanLoop, hscan, ih]
    cases acc <;> cases rs <;> simp [Slice.append, Slice.elems]

/-- The store of a fresh database file keeps the integrity of its primary keys,
and every handler that writes to the store preserves it, whatever the request and
whether or not the statement fails. -/
theorem handlers_preserve_WF (db : DB) (hwf : db.WF) (fishBody : Except String FishProfile)
    (scheduleBody : Except String FeedingSchedule) (param : String) (fault : Option String) :
    (initDB none).WF ∧
    (createFish db fishBody fault).2.WF ∧
    (updateFish db param fishBody fault).2.WF ∧
    (deleteFish db param fault).2.WF ∧
    (createFeedingSchedule db scheduleBody fault).2.WF ∧
    (updateFeedingSchedule db param scheduleBody fault).2.WF ∧
    (deleteFeedingSchedule db param fault).2.WF := by
  refine ⟨by decide, ?_, ?_, ?_, ?_, ?_, ?_⟩
  · cases fishBody with
    | error e => exact hwf
    | ok fish =>
      cases fault with
      | some e => exact hwf
      | none =>
        by_cases hfull : db.nextFishId > maxInt64
        · simp only [createFish, execInsertFish, hfull, if_true]
          exact hwf
        · simp only [createFish, execInsertFish, hfull, if_false]
          refine ⟨?_, hwf.2⟩
          simp only [List.map_append, List.map_cons, List.map_nil]
          exact IdsWF_append_new (db.tables.fish_profiles.map FishRow.id) db.tables.fishSeq
            hwf.1 (not_lt.1 hfull)
  · cases fishBody with
    | error e => exact hwf
    | ok fish =>
      cases fault with
      | some e => exact hwf
      | none =>
        have hmap := map_key_map_update db.tables.fish_profiles FishRow.id
          (strconvAtoi param).1 (FishRow.ofProfile (strconvAtoi param).1 fish) rfl
        have hres : (updateFish db param (.ok fish) none).2 =
            { db with tables := { db.tables with
                fish_profiles := db.tables.fish_profiles.map
                  (fun r => if r.id = (strconvAtoi param).1 then
                    FishRow.ofProfile (strconvAtoi param).1 fish else r) } } := by
          simp only [updateFish, execUpdateFish]
          split <;> rfl
        rw [hres]
        refine ⟨?_, hwf.2⟩
        simp only
        rw [hmap]
        exact hwf.1
  · cases fault with
    | some e => exact hwf
    | none =>
      cases hp : sqliteIntegerOfText param with
      | none =>
        simp only [deleteFish, execDeleteFish, hp]
        exact hwf
      | some n =>
        have hres : (deleteFish db param none).2 =
            { db with tables := { db.tables with
                fish_profiles := db.tables.fish_profiles.filter (fun r => r.id != n),
                feeding_schedules :=
                  if (db.foreignKeys &&
                      db.tables.fish_profiles.countP (fun r => r.id == n) != 0) = true then
                    db.tables.feeding_schedules.filter (fun s => s.fish_id != n)
                  else db.tables.feeding_schedules } } := by
          simp only [deleteFish, execDeleteFish, hp]
          split <;> rfl
        rw [hres]
        refine ⟨IdsWF_filter FishRow.id _ _ hwf.1, ?_⟩
        simp only
        split
        · exact IdsWF_filter ScheduleRow.id _ _ hwf.2
        · exact hwf.2
  · cases scheduleBody with
    | error e => exact hwf
    | ok schedule =>
      cases fault with
      | some e => exact hwf
      | none =>
        cases hfk : (db.foreignKeys && !fishExists db schedule.FishID) with
        | true =>
          simp only [createFeedingSchedule, execInsertSchedule, hfk, if_true]
          exact hwf
        | false =>
          by_cases hfull : db.nextScheduleId > maxInt64
          · simp only [createFeedingSchedule, execInsertSchedule, hfk, hfull, if_true,
              Bool.false_eq_true, if_false]
            exact hwf
          · simp only [createFeedingSchedule, execInsertSchedule, hfk, hfull,
              Bool.false_eq_true, if_false]
            refine ⟨hwf.1, ?_⟩
            simp only [List.map_append, List.map_cons, List.map_nil]
            exact IdsWF_append_new (db.tables.feeding_schedules.map ScheduleRow.id)
              db.tables.scheduleSeq hwf.2 (not_lt.1 hfull)
  · rcases hat : strconvAtoi param with ⟨v, _ | err⟩
    · cases scheduleBody with
      | error e =>
        simp only [updateFeedingSchedule, hat]
        exact hwf
      | ok schedule =>
        cases fault with
        | some e =>
          simp only [updateFeedingSchedule, hat, execUpdateSchedule]
          exact hwf
        | none =>
          have hmap := map_key_map_update db.tables.feeding_schedules ScheduleRow.id v
            (⟨v, schedule.Time, schedule.FoodType, schedule.FishID⟩ : ScheduleRow) rfl
          cases hfk : (db.foreignKeys &&
              db.tables.feeding_schedules.countP (fun s => s.id == v) != 0 &&
              !fishExists db schedule.FishID) with
          | true =>
            simp only [updateFeedingSchedule, hat, execUpdateSchedule, hfk, if_true]
            exact hwf
          | false =>
            have hres : (updateFeedingSchedule db param (.ok schedule) none).2 =
                { db with tables := { db.tables with
                    feeding_schedules := db.tables.feeding_schedules.map
                      (fun s => if s.id = v then
                        ⟨v, schedule.Time, schedule.FoodType, schedule.FishID⟩ else s) } } := by
              simp only [updateFeedingSchedule, hat, execUpdateSchedule, hfk,
                Bool.false_eq_true, if_false]
              split <;> rfl
            rw [hres]
            refine ⟨hwf.1, ?_⟩
            simp only
            rw [hmap]
            exact hwf.2
    · simp only [updateFeedingSchedule, hat]
      exact hwf
  · rcases hat : strconvAtoi param with ⟨v, _ | err⟩
    · cases fault with
      | some e =>
        simp only [deleteFeedingSchedule, hat, execDeleteSchedule]
        exact hwf
      | none =>
        have hres : (deleteFeedingSchedule db param none).2 =
            { db with tables := { db.tables with
                feeding_schedules := db.tables.feeding_schedules.filter (fun s => s.id != v) } } := by
          simp only [deleteFeedingSchedule, hat, execDeleteSchedule]
          split <;> rfl
        rw [hres]
        exact ⟨hwf.1, IdsWF_filter ScheduleRow.id _ _ hwf.2⟩
    · simp only [deleteFeedingSchedule, hat]
      exact hwf

/-! ## Fish profiles: creation and retrieval -/

/-- C1: on a fresh database file the store gives Nemo's row the identity 1 (the
`INSERT` reports it as its last insert id and the table holds the row under 1),
yet `createFish` answers 201 with the record as decoded, whose `id` is the 0 of
the request body. -/
theorem createFish_echoes_request_id :
    execInsertFish (initDB none) nemo none =
        .ok (initDB (some ⟨[FishRow.ofProfile 1 nemo], [], 1, 0⟩), ⟨1, 1⟩) ∧
      createFish (initDB none) (.ok nemo) none =
        (⟨201, .fish nemo⟩, initDB (some ⟨[FishRow.ofProfile 1 nemo], [], 1, 0⟩)) ∧
      nemo.ID = 0 ∧
      (⟨201, .fish nemo⟩ : Response).body.marshal =
        .object [("id", .num 0), ("name", .str "Nemo"), ("variety", .str "Clownfish"),
          ("color", .str "orange"), ("age", .str "1y"), ("healthStatus", .str "good"),
          ("lastHealthCheck", .str "2024-01-01"), ("notes", .str ""), ("tankId", .str "T1")] := by
  decide

/-- C2: in a store that keeps the integrity of its primary keys and has fish row
ids left, `createFish` on a decoded payload `p` answers 201, its `INSERT` having
stored one new row under the fresh identity, and `getFish` for this identity,
written in decimal or as any other text that SQLite reads as this integer, answers
200 with `p` itself except that `id` is the assigned identity. -/
theorem create_then_getFish (db : DB) (p : FishProfile)
    (hwf : db.WF) (hroom : db.fishIdsLeft) :
    (createFish db (.ok p) none).1.status = 201 ∧
    execInsertFish db p none =
      .ok ((createFish db (.ok p) none).2, ⟨db.nextFishId, 1⟩) ∧
    getFish (createFish db (.ok p) none).2 (toString db.nextFishId) none =
      ⟨200, .fish { p with ID := db.nextFishId }⟩ ∧
    ∀ param : String, sqliteIntegerOfText param = some db.nextFishId →
      getFish (createFish db (.ok p) none).2 param none =
        ⟨200, .fish { p with ID := db.nextFishId }⟩ := by
  have hnot : ¬ db.nextFishId > maxInt64 := not_lt.2 hroom
  have hfresh : ∀ r ∈ db.tables.fish_profiles, FishRow.id r ≠ db.nextFishId := by
    intro r hr
    exact ne_of_lt (lt_newRowid _ _ r.id (List.mem_map_of_mem _ hr))
  have hfind := find?_append_fresh db.tables.fish_profiles
    (FishRow.ofProfile db.nextFishId p) FishRow.id db.nextFishId hfresh rfl
  have general : ∀ param : String, sqliteIntegerOfText param = some db.nextFishId →
      getFish (createFish db (.ok p) none).2 param none =
        ⟨200, .fish { p with ID := db.nextFishId }⟩ := by
    intro param hparam
    simp only [createFish, execInsertFish, hnot, if_false, getFish, queryRowFish, hparam, hfind]
    rfl
  refine ⟨?_, ?_, ?_, general⟩
  · simp [createFish, execInsertFish, hnot]
  · simp [createFish, execInsertFish, hnot]
  · exact general _ (sqliteIntegerOfText_toString _
      (minInt64_le_newRowid _ _ hwf.1.2) hroom)

/-- Witness for C2: the scenario's Nemo on a fresh database file, read back as
`/fish/1`. -/
theorem create_then_getFish_witness :
    (initDB none).WF ∧ (initDB none).fishIdsLeft ∧
    (createFish (initDB none) (.ok nemo) none).1.status = 201 ∧
    getFish (createFish (initDB none) (.ok nemo) none).2 "1" none =
      ⟨200, .fish { nemo with ID := 1 }⟩ :=
  ⟨by decide, by decide,
   (create_then_getFish (initDB none) nemo (by decide) (by decide)).1,
   (create_then_getFish (initDB none) nemo (by decide) (by decide)).2.2.2 "1" (by decide)⟩

/-! ## Deleting a fish profile -/

/-- Rows of a table with a primary key are determined by their id. -/
theorem eq_of_id_eq {α : Type} (key : α → Int) (l : List α) (hnd : (l.map key).Nodup)
    (a b : α) (ha : a ∈ l) (hb : b ∈ l) (h : key a = key b) : a = b :=
  List.inj_on_of_nodup_map hnd ha hb h

/-- A row of the join pairs a stored schedule with a stored fish of the id the
schedule refers to. -/
theorem mem_joinSchedulesFish (db : DB) (r : ScheduleRow × FishRow) :
    r ∈ joinSchedulesFish db ↔
      r.1 ∈ db.tables.feeding_schedules ∧ r.2 ∈ db.tables.fish_profiles ∧
        r.1.fish_id = r.2.id := by
  obtain ⟨s, f⟩ := r
  simp only [joinSchedulesFish, List.mem_flatMap, List.mem_map, List.mem_filter, Prod.mk.injEq,
    beq_iff_eq]
  constructor
  · rintro ⟨a, ha, g, ⟨hg, hag⟩, rfl, rfl⟩
    exact ⟨ha, hg, hag⟩
  · rintro ⟨hs, hf, hsf⟩
    exact ⟨s, hs, f, ⟨hf, hsf⟩, rfl, rfl⟩

/-- What `deleteFish` does for a parameter denoting the id of a stored fish: it
answers 200, removes the fish rows of that id and, only on a connection that
enforces foreign keys, the schedules referring to it. -/
theorem deleteFish_of_mem (db : DB) (f : FishRow) (param : String)
    (hf : f ∈ db.tables.fish_profiles) (hparam : sqliteIntegerOfText param = some f.id) :
    deleteFish db param none =
      (⟨200, .message "Fish profile deleted successfully"⟩,
       { db with tables := { db.tables with
           fish_profiles := db.tables.fish_profiles.filter (fun r => r.id != f.id),
           feeding_schedules :=
             if db.foreignKeys then
               db.tables.feeding_schedules.filter (fun s => s.fish_id != f.id)
             else db.tables.feeding_schedules } }) := by
  have hcount : db.tables.fish_profiles.countP (fun r => r.id == f.id) ≠ 0 := by
    intro h0
    exact (countP_key_eq_zero _ FishRow.id f.id).1 h0 f hf rfl
  simp only [deleteFish, execDeleteFish, hparam]
  simp [hcount]

/-- C3: the store opened by `initDB` on the file holding Nemo and its schedule.
`deleteFish` for Nemo's id answers 200 and removes the fish row, yet the schedule
whose `fishId` is that id is still in `feeding_schedules`, and
`getFeedingSchedulesByFish` for that id still returns it. -/
theorem deleteFish_leaves_schedules :
    (initDB (some nemoTables)).foreignKeys = false ∧
    (deleteFish (initDB (some nemoTables)) "1" none).1 =
      ⟨200, .message "Fish profile deleted successfully"⟩ ∧
    (deleteFish (initDB (some nemoTables)) "1" none).2.tables.fish_profiles = [] ∧
    (deleteFish (initDB (some nemoTables)) "1" none).2.tables.feeding_schedules =
      [⟨1, "08:00", "flakes", 1⟩] ∧
    getFeedingSchedulesByFish (deleteFish (initDB (some nemoTables)) "1" none).2 "1" .none =
      ⟨200, .scheduleList (some [⟨1, "08:00", "flakes", 1, ""⟩])⟩ := by
  decide

/-- On a connection that does enforce foreign keys the cascade declared by
`createTables` takes place: after a successful `deleteFish` no schedule refers to
the deleted id. -/
theorem deleteFish_cascades_when_enforced (db : DB) (f : FishRow) (param : String)
    (hfk : db.foreignKeys = true)
    (hf : f ∈ db.tables.fish_profiles) (hparam : sqliteIntegerOfText param = some f.id) :
    ∀ s ∈ (deleteFish db param none).2.tables.feeding_schedules, s.fish_id ≠ f.id := by
  rw [deleteFish_of_mem db f param hf hparam]
  intro s hs
  simp only [hfk, if_true, List.mem_filter] at hs
  simpa using hs.2

/-- C4: in a store that keeps the integrity of its primary keys, let `f` be a
stored fish and `s` a stored schedule with `fishId` equal to the id of `f`.
`deleteFish` for the id of `f` answers 200, and on the resulting store
`getFeedingSchedule` for the id of `s` answers 404 with the body
`{"error": "Feeding schedule not found"}`, whether or not foreign keys are
enforced.  The ids may be written in decimal or as any other text the handlers
read as these integers. -/
theorem getFeedingSchedule_after_deleteFish (db : DB) (f : FishRow) (s : ScheduleRow)
    (hwf : db.WF)
    (hf : f ∈ db.tables.fish_profiles) (hs : s ∈ db.tables.feeding_schedules)
    (hsf : s.fish_id = f.id) :
    (deleteFish db (toString f.id) none).1.status = 200 ∧
    getFeedingSchedule (deleteFish db (toString f.id) none).2 (toString s.id) none =
      ⟨404, .error "Feeding schedule not found"⟩ ∧
    (getFeedingSchedule (deleteFish db (toString f.id) none).2 (toString s.id)
        none).body.marshal =
      .object [("error", .str "Feeding schedule not found")] ∧
    ∀ param q : String, sqliteIntegerOfText param = some f.id →
      strconvAtoi q = (s.id, none) →
        (deleteFish db param none).1.status = 200 ∧
        getFeedingSchedule (deleteFish db param none).2 q none =
          ⟨404, .error "Feeding schedule not found"⟩ := by
  have general : ∀ param q : String, sqliteIntegerOfText param = some f.id →
      strconvAtoi q = (s.id, none) →
        (deleteFish db param none).1.status = 200 ∧
        getFeedingSchedule (deleteFish db param none).2 q none =
          ⟨404, .error "Feeding schedule not found"⟩ := by
    intro param q hparam hq
    rw [deleteFish_of_mem db f param hf hparam]
    refine ⟨rfl, ?_⟩
    have hnone : (joinSchedulesFish
        { db with tables := { db.tables with
           fish_profiles := db.tables.fish_profiles.filter (fun r => r.id != f.id),
           feeding_schedules :=
             if db.foreignKeys then
               db.tables.feeding_schedules.filter (fun s => s.fish_id != f.id)
             else db.tables.feeding_schedules } }).find? (fun r => r.1.id == s.id) = none := by
      rw [List.find?_eq_none]
      intro r hr hid
      rw [mem_joinSchedulesFish] at hr
      obtain ⟨hr1, hr2, hr3⟩ := hr
      have hr1' : r.1 ∈ db.tables.feeding_schedules := by
        simp only at hr1
        split at hr1
        · exact (List.mem_filter.1 hr1).1
        · exact hr1
      have hrs : r.1 = s :=
        eq_of_id_eq ScheduleRow.id _ hwf.2.1 r.1 s hr1' hs (by simpa using hid)
      have hr2' : r.2.id ≠ f.id := by
        have := (List.mem_filter.1 hr2).2
        simpa using this
      apply hr2'
      rw [← hr3, hrs, hsf]
    simp only [getFeedingSchedule, hq, queryRowSchedule, hnone]
  have hfr := hwf.1.2 f.id (List.mem_map_of_mem _ hf)
  have hsr := hwf.2.2 s.id (List.mem_map_of_mem _ hs)
  have canonical := general (toString f.id) (toString s.id)
    (sqliteIntegerOfText_toString f.id hfr.1 hfr.2) (strconvAtoi_toString s.id hsr.1 hsr.2)
  refine ⟨canonical.1, canonical.2, ?_, general⟩
  rw [canonical.2]
  rfl

/-- Witness for C4: Nemo and its schedule, on the store as `initDB` opens it. -/
theorem getFeedingSchedule_after_deleteFish_witness :
    (initDB (some nemoTables)).WF ∧
    (deleteFish (initDB (some nemoTables)) "1" none).1.status = 200 ∧
    getFeedingSchedule (deleteFish (initDB (some nemoTables)) "1" none).2 "1" none =
      ⟨404, .error "Feeding schedule not found"⟩ :=
  ⟨by decide,
   (getFeedingSchedule_after_deleteFish (initDB (some nemoTables)) (FishRow.ofProfile 1 nemo)
     ⟨1, "08:00", "flakes", 1⟩ (by decide) (by decide) (by decide) (by decide)).2.2.2
     "1" "1" (by decide) (by decide)⟩

/-! ## Updates -/

/-- C5: when no fish row has the id `strconv.Atoi` returns for the route parameter,
`updateFish` with a decoded body answers 404 with the error "Fish not found" and
the store it leaves is the store it found; when the route parameter reads as an id
that no schedule row has, `updateFeedingSchedule` answers 404 with the error
"Feeding schedule not found" and likewise leaves the store as it found it. -/
theorem update_of_missing_id (db : DB) (idParam : String) (fish : FishProfile)
    (idParam' : String) (id' : Int) (schedule : FeedingSchedule)
    (hfish : ∀ r ∈ db.tables.fish_profiles, r.id ≠ (strconvAtoi idParam).1)
    (hid : strconvAtoi idParam' = (id', none))
    (hsched : ∀ s ∈ db.tables.feeding_schedules, s.id ≠ id') :
    updateFish db idParam (.ok fish) none = (⟨404, .error "Fish not found"⟩, db) ∧
    (updateFish db idParam (.ok fish) none).1.body.marshal =
      .object [("error", .str "Fish not found")] ∧
    updateFeedingSchedule db idParam' (.ok schedule) none =
      (⟨404, .error "Feeding schedule not found"⟩, db) := by
  have h1 := (countP_key_eq_zero db.tables.fish_profiles FishRow.id _).2 hfish
  have h2 := map_update_of_no_match db.tables.fish_profiles FishRow.id _
    (FishRow.ofProfile (strconvAtoi idParam).1 fish) hfish
  have h3 := (countP_key_eq_zero db.tables.feeding_schedules ScheduleRow.id _).2 hsched
  have h4 := map_update_of_no_match db.tables.feeding_schedules ScheduleRow.id _
    (⟨id', schedule.Time, schedule.FoodType, schedule.FishID⟩ : ScheduleRow) hsched
  have key : updateFish db idParam (.ok fish) none = (⟨404, .error "Fish not found"⟩, db) := by
    simp only [updateFish, execUpdateFish, h1, h2, if_true]
  refine ⟨key, ?_, ?_⟩
  · rw [key]; rfl
  · simp only [updateFeedingSchedule, hid, execUpdateSchedule, h3, h4]
    simp

/-- Witness for C5: `PUT /fish/7` and `PUT /feeding-schedules/7` on the store
holding only Nemo and its schedule. -/
theorem update_of_missing_id_witness :
    updateFish (initDB (some nemoTables)) "7" (.ok nemo) none =
      (⟨404, .error "Fish not found"⟩, initDB (some nemoTables)) ∧
    (updateFish (initDB (some nemoTables)) "7" (.ok nemo) none).1.body.marshal =
      .object [("error", .str "Fish not found")] ∧
    updateFeedingSchedule (initDB (some nemoTables)) "7" (.ok breakfast) none =
      (⟨404, .error "Feeding schedule not found"⟩, initDB (some nemoTables)) :=
  update_of_missing_id (initDB (some nemoTables)) "7" nemo "7" 7 breakfast
    (by decide) (by decide) (by decide)

/-- C9: when some fish row has the id `strconv.Atoi` returns for the route
parameter, `updateFish` with a decoded body `b` answers 200 with `b` under that
id.  In the store it leaves, the fish table has the same ids in the same places,
every row of that id is the row of `b`'s eight fields, the rows of other ids are
as before, and the schedule table, both counters and the connection setting are
untouched. -/
theorem updateFish_of_existing_id (db : DB) (idParam : String) (b : FishProfile)
    (hex : ∃ r ∈ db.tables.fish_profiles, r.id = (strconvAtoi idParam).1) :
    (updateFish db idParam (.ok b) none).1 =
      ⟨200, .fish { b with ID := (strconvAtoi idParam).1 }⟩ ∧
    (updateFish db idParam (.ok b) none).2.tables.fish_profiles.map FishRow.id =
      db.tables.fish_profiles.map FishRow.id ∧
    (∀ r ∈ (updateFish db idParam (.ok b) none).2.tables.fish_profiles,
      r.id = (strconvAtoi idParam).1 →
        r = FishRow.ofProfile (strconvAtoi idParam).1 b ∧
        scanFish r = .ok { b with ID := (strconvAtoi idParam).1 }) ∧
    (updateFish db idParam (.ok b) none).2.tables.fish_profiles.filter
        (fun r => r.id != (strconvAtoi idParam).1) =
      db.tables.fish_profiles.filter (fun r => r.id != (strconvAtoi idParam).1) ∧
    (updateFish db idParam (.ok b) none).2.tables.feeding_schedules =
      db.tables.feeding_schedules ∧
    (updateFish db idParam (.ok b) none).2.tables.fishSeq = db.tables.fishSeq ∧
    (updateFish db idParam (.ok b) none).2.tables.scheduleSeq = db.tables.scheduleSeq ∧
    (updateFish db idParam (.ok b) none).2.foreignKeys = db.foreignKeys := by
  obtain ⟨r0, hr0, hid0⟩ := hex
  have hcount : db.tables.fish_profiles.countP (fun r => r.id == (strconvAtoi idParam).1) ≠ 0 := by
    intro h0
    exact (countP_key_eq_zero _ FishRow.id _).1 h0 r0 hr0 hid0
  have hres : updateFish db idParam (.ok b) none =
      (⟨200, .fish { b with ID := (strconvAtoi idParam).1 }⟩,
       { db with tables := { db.tables with
           fish_profiles := db.tables.fish_profiles.map
             (fun r => if r.id = (strconvAtoi idParam).1 then
               FishRow.ofProfile (strconvAtoi idParam).1 b else r) } }) := by
    simp only [updateFish, execUpdateFish, hcount, if_false]
  rw [hres]
  refine ⟨rfl, ?_, ?_, ?_, rfl, rfl, rfl, rfl⟩
  · simp only [List.map_map]
    apply List.map_congr_left
    intro r _
    by_cases h : r.id = (strconvAtoi idParam).1
    · simp [h, FishRow.ofProfile]
    · simp [h]
  · intro r hr hid
    simp only [List.mem_map] at hr
    obtain ⟨a, _, ha⟩ := hr
    by_cases h : a.id = (strconvAtoi idParam).1
    · rw [if_pos h] at ha
      subst ha
      exact ⟨rfl, rfl⟩
    · rw [if_neg h] at ha
      subst ha
      exact absurd hid h
  · exact filter_ne_map_update db.tables.fish_profiles FishRow.id _
      (FishRow.ofProfile (strconvAtoi idParam).1 b) rfl

/-- Witness for C9: `PUT /fish/1` on the store holding Nemo and its schedule. -/
theorem updateFish_of_existing_id_witness :
    (updateFish (initDB (some nemoTables)) "1" (.ok { nemo with Color := "white" }) none).1 =
      ⟨200, .fish { nemo with Color := "white", ID := 1 }⟩ ∧
    (updateFish (initDB (some nemoTables)) "1" (.ok { nemo with Color := "white" }) none).2.tables.feeding_schedules =
      nemoTables.feeding_schedules :=
  ⟨(updateFish_of_existing_id (initDB (some nemoTables)) "1" { nemo with Color := "white" }
      ⟨FishRow.ofProfile 1 nemo, by decide, by decide⟩).1,
   (updateFish_of_existing_id (initDB (some nemoTables)) "1" { nemo with Color := "white" }
      ⟨FishRow.ofProfile 1 nemo, by decide, by decide⟩).2.2.2.2.1⟩

/-! ## Feeding schedules and the fish name -/

/-- The records a list handler returns when no row fails to scan are the scanned
rows, in order. -/
theorem scanLoop_elems {ρ α : Type} (scan : ρ → Except String α) (f : ρ → α)
    (hscan : ∀ r, scan r = .ok (f r)) (rows : List ρ) :
    ∃ l : Slice α, scanLoop scan rows none = .ok l ∧ l.elems = rows.map f := by
  rw [scanLoop_total scan f hscan rows none]
  cases rows with
  | nil => exact ⟨none, rfl, rfl⟩
  | cons r rs => exact ⟨_, rfl, by simp [Slice.elems]⟩

/-- The rows `rows.Next()` delivers are rows of the result set. -/
theorem mem_of_mem_deliver {α : Type} (fault : QueryFault) (rows : List α) (x : α)
    (hx : x ∈ fault.deliver rows) : x ∈ rows := by
  cases fault with
  | none => exact hx
  | query e => exact hx
  | next k e => exact List.mem_of_mem_take hx

/-- The member `fishName` of a schedule's JSON object is always written and holds
the record's `FishName`. -/
theorem toJson_fishName (s : FeedingSchedule) :
    s.toJson.hasKey "fishName" = true ∧ s.toJson.get? "fishName" = some (.str s.FishName) :=
  ⟨rfl, rfl⟩

/-- In a store with unique fish ids, a row of the join carries the name of the
fish its schedule refers to. -/
theorem joined_name (db : DB) (hwf : db.WF) (r : ScheduleRow × FishRow)
    (hr : r ∈ joinSchedulesFish db) (f : FishRow) (hf : f ∈ db.tables.fish_profiles)
    (hid : f.id = r.1.fish_id) : r.2.name = f.name := by
  obtain ⟨_, hr2, hr3⟩ := (mem_joinSchedulesFish db r).1 hr
  have : r.2 = f :=
    eq_of_id_eq FishRow.id _ hwf.1.1 r.2 f hr2 hf (by rw [hid, hr3])
  rw [this]

/-- C6, as the claim states it, fails: the one record `getFeedingSchedulesByFish`
returns for Nemo's id is written with a `fishName` member, whose value is the
empty string. -/
theorem getFeedingSchedulesByFish_writes_fishName :
    (getFeedingSchedulesByFish (initDB (some nemoTables)) "1" .none).body.marshal =
      .array [[("id", .num 1), ("time", .str "08:00"), ("foodType", .str "flakes"),
        ("fishId", .num 1), ("fishName", .str "")]] ∧
    ¬ (∀ rec ∈ (getFeedingSchedulesByFish (initDB (some nemoTables)) "1" .none).schedules,
        rec.toJson.hasKey "fishName" = false) := by
  decide

/-- C6, amended: in a store with unique primary keys, every record of a
`getFeedingSchedulesByFish` response has the empty string as its `FishName`, and
its JSON object carries the member `fishName` with that empty string; every
record returned by `getFeedingSchedule` or `getAllFeedingSchedules` refers to a
stored fish and its `FishName` is the name of that fish. -/
theorem fishName_of_schedule_reads (db : DB) (hwf : db.WF) :
    (∀ (fishID : String) (fault : QueryFault),
      ∀ rec ∈ (getFeedingSchedulesByFish db fishID fault).schedules,
        rec.FishName = "" ∧ rec.toJson.hasKey "fishName" = true ∧
          rec.toJson.get? "fishName" = some (.str "")) ∧
    (∀ (idParam : String) (fault : Option String),
      ∀ rec ∈ (getFeedingSchedule db idParam fault).schedules,
        (∃ f ∈ db.tables.fish_profiles, f.id = rec.FishID) ∧
        (∀ f ∈ db.tables.fish_profiles, f.id = rec.FishID → rec.FishName = f.name ∧
          rec.toJson.get? "fishName" = some (.str f.name))) ∧
    (∀ (fault : QueryFault),
      ∀ rec ∈ (getAllFeedingSchedules db fault).schedules,
        (∃ f ∈ db.tables.fish_profiles, f.id = rec.FishID) ∧
        (∀ f ∈ db.tables.fish_profiles, f.id = rec.FishID → rec.FishName = f.name ∧
          rec.toJson.get? "fishName" = some (.str f.name))) := by
  have hjoin : ∀ r ∈ joinSchedulesFish db,
      (∃ f ∈ db.tables.fish_profiles, f.id = r.1.fish_id) ∧
      (∀ f ∈ db.tables.fish_profiles, f.id = r.1.fish_id → r.2.name = f.name ∧
        (⟨r.1.id, r.1.time, r.1.food_type, r.1.fish_id, r.2.name⟩ : FeedingSchedule).toJson.get?
          "fishName" = some (.str f.name)) := by
    intro r hr
    refine ⟨⟨r.2, ((mem_joinSchedulesFish db r).1 hr).2.1,
      ((mem_joinSchedulesFish db r).1 hr).2.2.symm⟩, ?_⟩
    intro f hf hid
    have hname := joined_name db hwf r hr f hf hid
    exact ⟨hname, by rw [← hname]; rfl⟩
  refine ⟨?_, ?_, ?_⟩
  · intro fishID fault rec hrec
    have hmem : ∃ r : ScheduleRow, rec = ⟨r.id, r.time, r.food_type, r.fish_id, ""⟩ := by
      cases fault with
      | query e => simp [getFeedingSchedulesByFish, Response.schedules] at hrec
      | none =>
        obtain ⟨l, hl, hle⟩ := scanLoop_elems scanSchedule
          (fun r => ⟨r.id, r.time, r.food_type, r.fish_id, ""⟩) (fun _ => rfl)
          (QueryFault.none.deliver (selectSchedulesByFish db fishID))
        simp only [getFeedingSchedulesByFish, hl, Response.schedules, hle, List.mem_map] at hrec
        obtain ⟨r, _, hr⟩ := hrec
        exact ⟨r, hr.symm⟩
      | next k e =>
        obtain ⟨l, hl, hle⟩ := scanLoop_elems scanSchedule
          (fun r => ⟨r.id, r.time, r.food_type, r.fish_id, ""⟩) (fun _ => rfl)
          ((QueryFault.next k e).deliver (selectSchedulesByFish db fishID))
        simp only [getFeedingSchedulesByFish, hl, Response.schedules, hle, List.mem_map] at hrec
        obtain ⟨r, _, hr⟩ := hrec
        exact ⟨r, hr.symm⟩
    obtain ⟨r, rfl⟩ := hmem
    exact ⟨rfl, rfl, rfl⟩
  · intro idParam fault rec hrec
    have hmem : ∃ r ∈ joinSchedulesFish db,
        rec = ⟨r.1.id, r.1.time, r.1.food_type, r.1.fish_id, r.2.name⟩ := by
      rcases hat : strconvAtoi idParam with ⟨v, _ | e⟩
      · cases fault with
        | some e => simp [getFeedingSchedule, hat, queryRowSchedule, Response.schedules] at hrec
        | none =>
          cases hfind : (joinSchedulesFish db).find? (fun r => r.1.id == v) with
          | none =>
            simp [getFeedingSchedule, hat, queryRowSchedule, hfind, Response.schedules] at hrec
          | some r =>
            simp only [getFeedingSchedule, hat, queryRowSchedule, hfind, scanJoined,
              Response.schedules, List.mem_singleton] at hrec
            exact ⟨r, List.mem_of_find?_eq_some hfind, hrec⟩
      · simp [getFeedingSchedule, hat, Response.schedules] at hrec
    obtain ⟨r, hr, rfl⟩ := hmem
    exact hjoin r hr
  · intro fault rec hrec
    have hmem : ∃ r ∈ joinSchedulesFish db,
        rec = ⟨r.1.id, r.1.time, r.1.food_type, r.1.fish_id, r.2.name⟩ := by
      cases fault with
      | query e => simp [getAllFeedingSchedules, Response.schedules] at hrec
      | none =>
        obtain ⟨l, hl, hle⟩ := scanLoop_elems scanJoined
          (fun r => ⟨r.1.id, r.1.time, r.1.food_type, r.1.fish_id, r.2.name⟩) (fun _ => rfl)
          (QueryFault.none.deliver (joinSchedulesFish db))
        simp only [getAllFeedingSchedules, hl, Response.schedules, hle, List.mem_map] at hrec
        obtain ⟨r, hr, hr'⟩ := hrec
        exact ⟨r, mem_of_mem_deliver _ _ r hr, hr'.symm⟩
      | next k e =>
        obtain ⟨l, hl, hle⟩ := scanLoop_elems scanJoined
          (fun r => ⟨r.1.id, r.1.time, r.1.food_type, r.1.fish_id, r.2.name⟩) (fun _ => rfl)
          ((QueryFault.next k e).deliver (joinSchedulesFish db))
        simp only [getAllFeedingSchedules, hl, Response.schedules, hle, List.mem_map] at hrec
        obtain ⟨r, hr, hr'⟩ := hrec
        exact ⟨r, mem_of_mem_deliver _ _ r hr, hr'.symm⟩
    obtain ⟨r, hr, rfl⟩ := hmem
    exact hjoin r hr

/-- Witness for C6: the store holding Nemo and its schedule.  The record returned
for `/feeding-schedules/fish/1` has an empty `FishName`; the record returned for
`/feeding-schedules/1` has Nemo's name. -/
theorem fishName_of_schedule_reads_witness :
    (initDB (some nemoTables)).WF ∧
    (⟨1, "08:00", "flakes", 1, ""⟩ : FeedingSchedule).FishName = "" ∧
    (⟨1, "08:00", "flakes", 1, "Nemo"⟩ : FeedingSchedule).FishName =
      (FishRow.ofProfile 1 nemo).name :=
  ⟨by decide,
   ((fishName_of_schedule_reads (initDB (some nemoTables)) (by decide)).1 "1" .none
      ⟨1, "08:00", "flakes", 1, ""⟩ (by decide)).1,
   (((fishName_of_schedule_reads (initDB (some nemoTables)) (by decide)).2.1 "1" none
      ⟨1, "08:00", "flakes", 1, "Nemo"⟩ (by decide)).2
        (FishRow.ofProfile 1 nemo) (by decide) (by decide)).1⟩

/-- C7: whatever else the store holds, when `fish_profiles` is empty `getAllFish`
answers 200 with the nil slice, when `feeding_schedules` is empty so do
`getAllFeedingSchedules` and `getFeedingSchedulesByFish`, and the JSON document
written for such a body is `null`, which is not the empty array. -/
theorem empty_list_is_null (fk : Bool) (fish : List FishRow) (schedules : List ScheduleRow)
    (a b : Int) (fishID : String) :
    getAllFish ⟨fk, ⟨[], schedules, a, b⟩⟩ .none = ⟨200, .fishList none⟩ ∧
    getAllFeedingSchedules ⟨fk, ⟨fish, [], a, b⟩⟩ .none = ⟨200, .scheduleList none⟩ ∧
    getFeedingSchedulesByFish ⟨fk, ⟨fish, [], a, b⟩⟩ fishID .none =
      ⟨200, .scheduleList none⟩ ∧
    (getAllFish ⟨fk, ⟨[], schedules, a, b⟩⟩ .none).body.marshal = .null ∧
    (getAllFeedingSchedules ⟨fk, ⟨fish, [], a, b⟩⟩ .none).body.marshal = .null ∧
    (getFeedingSchedulesByFish ⟨fk, ⟨fish, [], a, b⟩⟩ fishID .none).body.marshal = .null ∧
    Json.null ≠ Json.array [] :=
  ⟨rfl, rfl, rfl, rfl, rfl, rfl, by decide⟩

/-- In a table with unique ids, the rows of a stored row's id are that row alone. -/
theorem filter_key_eq_singleton {α : Type} (key : α → Int) (l : List α)
    (hnd : (l.map key).Nodup) (x : α) (hx : x ∈ l) :
    l.filter (fun y => key x == key y) = [x] := by
  induction l with
  | nil => cases hx
  | cons a l ih =>
    rw [List.map_cons, List.nodup_cons] at hnd
    by_cases hax : a = x
    · subst hax
      have hnone : l.filter (fun y => key a == key y) = [] := by
        rw [List.filter_eq_nil_iff]
        intro y hy hya
        exact hnd.1 (by rw [eq_of_beq hya]; exact List.mem_map_of_mem _ hy)
      simp [List.filter_cons, hnone]
    · have hxl : x ∈ l := by
        rcases List.mem_cons.1 hx with h | h
        · exact absurd h.symm hax
        · exact h
      have hne : (key x == key a) = false := by
        rw [beq_eq_false_iff_ne]
        intro h
        exact hnd.1 (by rw [← h]; exact List.mem_map_of_mem _ hxl)
      simp [List.filter_cons, hne, ih hnd.2 hxl]

/-- C8: in a store that keeps the integrity of its primary keys and has schedule
row ids left, let `f` be a stored fish and `p` a decoded schedule payload whose
`fishId` is the id of `f`.  `createFeedingSchedule` answers 201 with `p` under the
id the store assigned, and on the resulting store `getFeedingSchedule` for that
id, written in decimal or as any other text `strconv.Atoi` reads as this integer,
answers 200 with the payload's `time`, `foodType` and `fishId` and with the name
of `f` as `fishName`, whatever `fishName` the payload carried. -/
theorem create_then_getFeedingSchedule (db : DB) (p : FeedingSchedule) (f : FishRow)
    (hwf : db.WF) (hroom : db.scheduleIdsLeft)
    (hf : f ∈ db.tables.fish_profiles) (hpf : p.FishID = f.id) :
    (createFeedingSchedule db (.ok p) none).1 =
      ⟨201, .schedule { p with ID := db.nextScheduleId }⟩ ∧
    execInsertSchedule db p none =
      .ok ((createFeedingSchedule db (.ok p) none).2, ⟨db.nextScheduleId, 1⟩) ∧
    getFeedingSchedule (createFeedingSchedule db (.ok p) none).2
        (toString db.nextScheduleId) none =
      ⟨200, .schedule ⟨db.nextScheduleId, p.Time, p.FoodType, p.FishID, f.name⟩⟩ ∧
    ∀ q : String, strconvAtoi q = (db.nextScheduleId, none) →
      getFeedingSchedule (createFeedingSchedule db (.ok p) none).2 q none =
        ⟨200, .schedule ⟨db.nextScheduleId, p.Time, p.FoodType, p.FishID, f.name⟩⟩ := by
  have hnot : ¬ db.nextScheduleId > maxInt64 := not_lt.2 hroom
  have hexists : fishExists db p.FishID = true := by
    simp only [fishExists, List.any_eq_true]
    exact ⟨f, hf, by simp [hpf]⟩
  have hins : execInsertSchedule db p none =
      .ok ({ db with tables := { db.tables with
                feeding_schedules := db.tables.feeding_schedules ++
                  [⟨db.nextScheduleId, p.Time, p.FoodType, p.FishID⟩],
                scheduleSeq := db.nextScheduleId } },
           ⟨db.nextScheduleId, 1⟩) := by
    simp [execInsertSchedule, hexists, hnot]
  have hcreate : createFeedingSchedule db (.ok p) none =
      (⟨201, .schedule { p with ID := db.nextScheduleId }⟩,
       { db with tables := { db.tables with
                feeding_schedules := db.tables.feeding_schedules ++
                  [⟨db.nextScheduleId, p.Time, p.FoodType, p.FishID⟩],
                scheduleSeq := db.nextScheduleId } }) := by
    simp only [createFeedingSchedule, hins]
  have hfresh : ∀ r ∈ joinSchedulesFish db, r.1.id ≠ db.nextScheduleId := by
    intro r hr
    have h1 := ((mem_joinSchedulesFish db r).1 hr).1
    exact ne_of_lt (lt_newRowid _ _ r.1.id (List.mem_map_of_mem _ h1))
  have hold : (joinSchedulesFish db).find? (fun r => r.1.id == db.nextScheduleId) = none := by
    rw [List.find?_eq_none]
    intro r hr hid
    exact hfresh r hr (eq_of_beq hid)
  have hfilter : db.tables.fish_profiles.filter (fun g => p.FishID == g.id) = [f] := by
    rw [hpf]
    exact filter_key_eq_singleton FishRow.id _ hwf.1.1 f hf
  have hjoin : joinSchedulesFish
      { db with tables := { db.tables with
                feeding_schedules := db.tables.feeding_schedules ++
                  [⟨db.nextScheduleId, p.Time, p.FoodType, p.FishID⟩],
                scheduleSeq := db.nextScheduleId } } =
      joinSchedulesFish db ++ [(⟨db.nextScheduleId, p.Time, p.FoodType, p.FishID⟩, f)] := by
    simp only [joinSchedulesFish, List.flatMap_append, List.flatMap_cons, List.flatMap_nil,
      hfilter, List.map_cons, List.map_nil, List.append_nil]
  have general : ∀ q : String, strconvAtoi q = (db.nextScheduleId, none) →
      getFeedingSchedule (createFeedingSchedule db (.ok p) none).2 q none =
        ⟨200, .schedule ⟨db.nextScheduleId, p.Time, p.FoodType, p.FishID, f.name⟩⟩ := by
    intro q hq
    rw [hcreate]
    simp only [getFeedingSchedule, hq, queryRowSchedule, hjoin, List.find?_append, hold]
    simp [scanJoined]
  refine ⟨?_, ?_, ?_, general⟩
  · rw [hcreate]
  · rw [hcreate, hins]
  · exact general _ (strconvAtoi_toString _ (minInt64_le_newRowid _ _ hwf.2.2) hroom)

/-- Witness for C8: the scenario's schedule for Nemo, sent with a `fishName` of its
own, on the store holding Nemo alone. -/
theorem create_then_getFeedingSchedule_witness :
    (initDB (some ⟨[FishRow.ofProfile 1 nemo], [], 1, 0⟩)).WF ∧
    (createFeedingSchedule (initDB (some ⟨[FishRow.ofProfile 1 nemo], [], 1, 0⟩))
      (.ok { breakfast with FishName := "Dory" }) none).1 =
        ⟨201, .schedule { breakfast with FishName := "Dory", ID := 1 }⟩ ∧
    getFeedingSchedule
      (createFeedingSchedule (initDB (some ⟨[FishRow.ofProfile 1 nemo], [], 1, 0⟩))
        (.ok { breakfast with FishName := "Dory" }) none).2 "1" none =
      ⟨200, .schedule ⟨1, "08:00", "flakes", 1, "Nemo"⟩⟩ :=
  ⟨by decide,
   (create_then_getFeedingSchedule (initDB (some ⟨[FishRow.ofProfile 1 nemo], [], 1, 0⟩))
      { breakfast with FishName := "Dory" } (FishRow.ofProfile 1 nemo)
      (by decide) (by decide) (by decide) (by decide)).1,
   (create_then_getFeedingSchedule (initDB (some ⟨[FishRow.ofProfile 1 nemo], [], 1, 0⟩))
      { breakfast with FishName := "Dory" } (FishRow.ofProfile 1 nemo)
      (by decide) (by decide) (by decide) (by decide)).2.2.2 "1" (by decide)⟩

/-! ## Store failures -/

/-- When the statement of a handler fails in `db.Exec`, in `db.QueryRow(...).Scan`
or in `db.Query`, the handler answers 500 with its fixed message and leaves the
store as it found it, whatever the text of the error. -/
theorem failed_statement_is_500 (db : DB) (e : String) (fish : FishProfile)
    (schedule : FeedingSchedule) (param : String) :
    createFish db (.ok fish) (some e) =
      (⟨500, .error "Failed to create fish profile"⟩, db) ∧
    getFish db param (some e) = ⟨500, .error "Failed to retrieve fish"⟩ ∧
    getAllFish db (.query e) = ⟨500, .error "Failed to retrieve fish profiles"⟩ ∧
    updateFish db param (.ok fish) (some e) =
      (⟨500, .error "Failed to update fish profile"⟩, db) ∧
    deleteFish db param (some e) = (⟨500, .error "Failed to delete fish profile"⟩, db) ∧
    createFeedingSchedule db (.ok schedule) (some e) =
      (⟨500, .error "Failed to create feeding schedule"⟩, db) ∧
    getAllFeedingSchedules db (.query e) =
      ⟨500, .error "Failed to retrieve feeding schedules"⟩ ∧
    getFeedingSchedulesByFish db param (.query e) =
      ⟨500, .error "Failed to retrieve feeding schedules"⟩ ∧
    ((strconvAtoi param).2 = none →
      getFeedingSchedule db param (some e) =
        ⟨500, .error "Failed to retrieve feeding schedule"⟩ ∧
      updateFeedingSchedule db param (.ok schedule) (some e) =
        (⟨500, .error "Failed to update feeding schedule"⟩, db) ∧
      deleteFeedingSchedule db param (some e) =
        (⟨500, .error "Failed to delete feeding schedule"⟩, db)) := by
  refine ⟨rfl, rfl, rfl, rfl, rfl, rfl, rfl, rfl, ?_⟩
  intro h
  rcases hat : strconvAtoi param with ⟨v, _ | err⟩
  · simp [getFeedingSchedule, updateFeedingSchedule, deleteFeedingSchedule, hat,
      queryRowSchedule, execUpdateSchedule, execDeleteSchedule]
  · rw [hat] at h
    cases h

/-- No handler's response depends on the text of a store error: two failures at
the same point of the same request get the same response and leave the same store. -/
theorem error_text_not_in_response (db : DB) (e₁ e₂ : String) (k : Nat)
    (fishBody : Except String FishProfile) (scheduleBody : Except String FeedingSchedule)
    (param : String) :
    createFish db fishBody (some e₁) = createFish db fishBody (some e₂) ∧
    getFish db param (some e₁) = getFish db param (some e₂) ∧
    getAllFish db (.query e₁) = getAllFish db (.query e₂) ∧
    getAllFish db (.next k e₁) = getAllFish db (.next k e₂) ∧
    updateFish db param fishBody (some e₁) = updateFish db param fishBody (some e₂) ∧
    deleteFish db param (some e₁) = deleteFish db param (some e₂) ∧
    createFeedingSchedule db scheduleBody (some e₁) =
      createFeedingSchedule db scheduleBody (some e₂) ∧
    getFeedingSchedule db param (some e₁) = getFeedingSchedule db param (some e₂) ∧
    getAllFeedingSchedules db (.query e₁) = getAllFeedingSchedules db (.query e₂) ∧
    getAllFeedingSchedules db (.next k e₁) = getAllFeedingSchedules db (.next k e₂) ∧
    getFeedingSchedulesByFish db param (.query e₁) =
      getFeedingSchedulesByFish db param (.query e₂) ∧
    getFeedingSchedulesByFish db param (.next k e₁) =
      getFeedingSchedulesByFish db param (.next k e₂) ∧
    updateFeedingSchedule db param scheduleBody (some e₁) =
      updateFeedingSchedule db param scheduleBody (some e₂) ∧
    deleteFeedingSchedule db param (some e₁) = deleteFeedingSchedule db param (some e₂) := by
  refine ⟨?_, rfl, rfl, rfl, ?_, rfl, ?_, ?_, rfl, rfl, rfl, rfl, ?_, ?_⟩
  · cases fishBody <;> rfl
  · cases fishBody <;> rfl
  · cases scheduleBody <;> rfl
  · rcases hat : strconvAtoi param with ⟨v, _ | err⟩ <;>
      simp [getFeedingSchedule, hat, queryRowSchedule]
  · rcases hat : strconvAtoi param with ⟨v, _ | err⟩ <;> cases scheduleBody <;>
      simp [updateFeedingSchedule, hat, execUpdateSchedule]
  · rcases hat : strconvAtoi param with ⟨v, _ | err⟩ <;>
      simp [deleteFeedingSchedule, hat, execDeleteSchedule]

/-- C10: the store holding Nemo and its schedule, and a read that fails with
"disk I/O error".  When `db.Query` itself fails the three list handlers answer
500; when the failure comes as the first row is fetched, `rows.Next()` returns
false, the loop body never runs, and each list handler answers 200 with the nil
slice, written `null`, although the table has a row to return. -/
theorem list_handlers_swallow_iteration_failure :
    getAllFish (initDB (some nemoTables)) (.query "disk I/O error") =
      ⟨500, .error "Failed to retrieve fish profiles"⟩ ∧
    getAllFish (initDB (some nemoTables)) .none =
      ⟨200, .fishList (some [{ nemo with ID := 1 }])⟩ ∧
    getAllFish (initDB (some nemoTables)) (.next 0 "disk I/O error") =
      ⟨200, .fishList none⟩ ∧
    getAllFeedingSchedules (initDB (some nemoTables)) (.next 0 "disk I/O error") =
      ⟨200, .scheduleList none⟩ ∧
    getFeedingSchedulesByFish (initDB (some nemoTables)) "1" (.next 0 "disk I/O error") =
      ⟨200, .scheduleList none⟩ ∧
    (getAllFish (initDB (some nemoTables)) (.next 0 "disk I/O error")).body.marshal = .null := by
  decide

end FishApi
